import Mathlib

set_option maxRecDepth 40000

/-!
Verification development for the bracket VM (`src/vm/vm.h`, `src/vm/vm.c`).

The C sources are embedded shallowly:

* machine integers become `Nat`/`Int` with explicit `% 2^w` where the C type
  forces a width (`uint16_t` casts, `uint32_t` casts, two's-complement `int64_t`);
* the 16-byte `BVMValue` union is a tag plus a `BVMUnion` recording through which
  member the payload was last written; reads through another member (type punning)
  are defined per the little-endian layout of the target, and reads of
  indeterminate (never written) memory are modelled as undefined behaviour;
* calls to `exit(code)` become the `exit` / `exit1` results; C undefined behaviour
  (out-of-bounds indexing, signed overflow, division by zero, indeterminate reads)
  becomes the `ub` result;
* the `printf` in `OP_RETURN` (the VM's only write to stdout) is recorded in the
  `outp` field of the machine state;
* `malloc`/`realloc` are assumed to succeed (out-of-memory aborts are not modelled).
-/

def UINT32_MAX : Nat := 4294967295

/-- Modelled from the spec: `BVM_PRIMITIVE_ENTRY`, the sentinel `entry_pc` marking a
procedure-table entry as a built-in primitive (spec §3: "A sentinel
`entry_pc = PRIMITIVE_ENTRY` marks a procedure as a built-in primitive").  The macro's
definition is not among the files under `src/` (it lives in a header outside the
provided sources); the spec describes it only as a sentinel, so it is given the MAX
sentinel value the spec uses for its other sentinels (`return_pc`, env `parent`). -/
def BVM_PRIMITIVE_ENTRY : Nat := UINT32_MAX

/- Data tags, vm.h `BVMDataTag`. -/
def TAG_INT : Nat := 0x01
def TAG_FLOAT : Nat := 0x02
def TAG_SYM : Nat := 0x03
def TAG_STR : Nat := 0x04
def TAG_BOOL : Nat := 0x05
def TAG_NIL : Nat := 0x06
def TAG_PAIR : Nat := 0x07
def TAG_PROC : Nat := 0x08
def TAG_IDENT : Nat := 0x09

/- Opcodes, vm.h `BVMInstrCode`. -/
def OP_RETURN : Nat := 0x00
def OP_LOAD_CONST : Nat := 0x01
def OP_LOAD_VAR : Nat := 0x02
def OP_STORE_VAR : Nat := 0x03
def OP_JMP : Nat := 0x04
def OP_JMP_TRUE : Nat := 0x05
def OP_JMP_FALSE : Nat := 0x06
def OP_LABEL : Nat := 0x07
def OP_CALL : Nat := 0x08
def OP_TAILCALL : Nat := 0x09
def OP_MAKE_CLOSURE : Nat := 0x0a
def OP_LOAD_CLOSURE : Nat := 0x0b
def OP_STORE_CLOSURE : Nat := 0x0c
def OP_POP : Nat := 0x0d
def OP_HALT : Nat := 0x0e
def OP_ADD : Nat := 0x0f
def OP_SUB : Nat := 0x10
def OP_MUL : Nat := 0x11
def OP_DIV : Nat := 0x12
def OP_NEG : Nat := 0x13
def OP_AND : Nat := 0x14
def OP_OR : Nat := 0x15
def OP_NOT : Nat := 0x16
def OP_XOR : Nat := 0x17
def OP_CMP_EQ : Nat := 0x18
def OP_CMP_LT : Nat := 0x19
def OP_CMP_GT : Nat := 0x1a

/-- The 16-byte anonymous union inside `BVMValue` (vm.h:73-96).  A constructor
records which member the value was last stored through; `uZero` is all-zero bytes
(`calloc`, zero-initialized compound literals) and `uUndef` is indeterminate
(`malloc`'d, never written). -/
inductive BVMUnion where
  | uUndef : BVMUnion
  | uZero : BVMUnion
  | uInt : Int → BVMUnion
  | uFloat : List Nat → BVMUnion
  | uBool : Nat → BVMUnion
  | uSym : Nat → BVMUnion
  | uStr : Nat → List Nat → BVMUnion
  | uClosure : Nat → Nat → BVMUnion
deriving DecidableEq

/-- `BVMValue` (vm.h:71-97): a tag byte plus the union. -/
structure BVMValue where
  tag : Nat
  un : BVMUnion
deriving DecidableEq

/-- The value of the byte representation of an `int64_t`, little-endian two's
complement: `i mod 2^64` in `[0, 2^64)`. -/
def toNat64 (i : Int) : Nat := (i % (18446744073709551616 : Int)).toNat

/-- Reinterpret a 64-bit byte value as a signed `int64_t`. -/
def toSigned64 (n : Nat) : Int :=
  if n % 18446744073709551616 < 9223372036854775808 then
    ((n % 18446744073709551616 : Nat) : Int)
  else ((n % 18446744073709551616 : Nat) : Int) - 18446744073709551616

/-- Little-endian byte-list value (head is the least significant byte). -/
def leVal (bs : List Nat) : Nat := bs.foldr (fun b acc => b % 256 + 256 * acc) 0

/-- Reading `.as.b` (the first byte of the union) from a value last written through an
arbitrary member: defined for every written value on the little-endian target, and
indeterminate (`none`) only for never-written memory. -/
def asB : BVMUnion → Option Nat
  | .uUndef => none
  | .uZero => some 0
  | .uInt i => some (toNat64 i % 256)
  | .uFloat bs => some (bs.headD 0)
  | .uBool b => some (b % 256)
  | .uSym id => some (id % 256)
  | .uStr len _ => some (len % 256)
  | .uClosure p _ => some (p % 256)

/-- Reading `.as.i` (the first 8 bytes of the union as an `int64_t`).  For members
narrower than 8 bytes the remaining bytes are unspecified (C11 6.2.6.1p7), so the
read is `none`; `uClosure` and `uFloat` occupy a full 8 bytes and are reinterpreted. -/
def asI : BVMUnion → Option Int
  | .uUndef => none
  | .uZero => some 0
  | .uInt i => some i
  | .uFloat bs => some (toSigned64 (leVal bs))
  | .uBool _ => none
  | .uSym _ => none
  | .uStr _ _ => none
  | .uClosure p e => some (toSigned64 (p % 4294967296 + 4294967296 * (e % 4294967296)))

/-- Reading `.as.closure` (two `uint32_t`s over the first 8 bytes). -/
def asClosure : BVMUnion → Option (Nat × Nat)
  | .uUndef => none
  | .uZero => some (0, 0)
  | .uInt i => some (toNat64 i % 4294967296, toNat64 i / 4294967296)
  | .uFloat bs => some (leVal bs % 4294967296, leVal bs / 4294967296 % 4294967296)
  | .uBool _ => none
  | .uSym _ => none
  | .uStr _ _ => none
  | .uClosure p e => some (p % 4294967296, e % 4294967296)

/-- All-zero-bytes value: `calloc`'d `BVMValue` slots (tag 0). -/
def zeroValue : BVMValue := ⟨0, .uZero⟩

/-- Indeterminate value: `malloc`'d, never-written stack slots. -/
def undefValue : BVMValue := ⟨0, .uUndef⟩

/-- The runtime NIL value as `make_value_from_constant` produces it (vm.c:582):
tag `TAG_NIL`, rest of the compound literal zero-initialized. -/
def nilValue : BVMValue := ⟨TAG_NIL, .uZero⟩

/-- `BVMConstant` (vm.h:142-146): tag byte, size, owned payload bytes. -/
structure BVMConstant where
  tag : Nat
  size : Nat
  data : List Nat
deriving DecidableEq

/-- `BVMEnv` (vm.h:99-103).  `size` is the `uint16_t` field; `slots` is the allocated
slot array (its length may exceed `size` for the global env, vm.c:499-500). -/
structure BVMEnv where
  parent : Nat
  size : Nat
  slots : List BVMValue
deriving DecidableEq

/-- `BVMFrame` (vm.h:105-109). -/
structure BVMFrame where
  return_pc : Nat
  env_idx : Nat
  stack_base : Nat
deriving DecidableEq

/-- `BVMStack` (vm.h:111-115): `data` is the allocated array (length = `capacity`);
`top` is the cursor. -/
structure BVMStack where
  capacity : Nat
  top : Nat
  data : List BVMValue
deriving DecidableEq

/-- `BVMProcedure` (vm.h:148-154); `free_count` is `free_vars.length`. -/
structure BVMProcedure where
  entry_pc : Nat
  arity : Nat
  local_count : Nat
  free_vars : List Nat
deriving DecidableEq

/-- `BVMSymbolEntry` (vm.h:136-140); `name_len` is `name.length`. -/
structure BVMSymbolEntry where
  id : Nat
  name : List Nat
deriving DecidableEq

/-- `BVMInstruction` (vm.h:156-159). -/
structure BVMInstruction where
  opcode : Nat
  operand : List BVMConstant
deriving DecidableEq

/-- The loaded `BVMProgram` tables the interpreter consumes (vm.h:189-206);
the counts are the list lengths. -/
structure BVMProgram where
  symbols : List BVMSymbolEntry
  constants : List BVMConstant
  procedures : List BVMProcedure
  bytecode : List BVMInstruction
deriving DecidableEq

/-- Full machine state of `execute_bvm`: the `BVM` record (vm.h:208-222) plus the
local instruction pointer `pc` (as an index relative to `code_start`, possibly
negative after a jump) and the list of stdout writes `outp` made by the
`printf` at vm.c:752 (pairs of the printed tag and `.as.i` view). -/
structure BVM where
  program : BVMProgram
  stack : BVMStack
  frames : List BVMFrame
  frame_capacity : Nat
  envs : List BVMEnv
  env_capacity : Nat
  current_env : Nat
  global_env : Nat
  halted : Bool
  error : Bool
  pc : Int
  outp : List (Nat × Option Int)
deriving DecidableEq

/-- Result of one iteration of the dispatch loop: continue with a new state,
terminate the process via `exit code`, or reach C undefined behaviour. -/
inductive StepResult where
  | next : BVM → StepResult
  | exit : Nat → StepResult
  | ub : StepResult
deriving DecidableEq

/-- Result of a helper that can `exit(EXIT_FAILURE)` or hit undefined behaviour. -/
inductive CRes (α : Type) where
  | ok : α → CRes α
  | exit1 : CRes α
  | ub : CRes α
deriving DecidableEq

/-- Read 4 little-endian bytes from a constant's payload (`*(uint32_t*)op->data`);
fewer than 4 allocated bytes is an out-of-bounds read. -/
def readU32c (c : BVMConstant) : Option Nat :=
  if 4 ≤ c.data.length then some (leVal (c.data.take 4)) else none

/-- Reinterpret a 32-bit byte value as a signed `int32_t`. -/
def toI32 (n : Nat) : Int :=
  if n % 4294967296 < 2147483648 then ((n % 4294967296 : Nat) : Int)
  else ((n % 4294967296 : Nat) : Int) - 4294967296

/-- Read 4 bytes as `*(int32_t*)op->data`. -/
def readI32c (c : BVMConstant) : Option Int := (readU32c c).map toI32

/-- `make_value_from_constant` (vm.c:568-600).  `exit1` is the
"invalid constant tag" `exit(EXIT_FAILURE)`; `ub` is a read past the
constant's allocated payload (including through a NULL `data`). -/
def make_value_from_constant (c : BVMConstant) : CRes BVMValue :=
  let k := c.tag / 8
  if k = TAG_INT then
    match readU32c c with
    | none => .ub
    | some n => .ok ⟨TAG_INT, .uInt (toI32 n)⟩
  else if k = TAG_FLOAT then
    if 8 ≤ c.data.length then .ok ⟨TAG_FLOAT, .uFloat (c.data.take 8)⟩ else .ub
  else if k = TAG_SYM then
    match readU32c c with
    | none => .ub
    | some n => .ok ⟨TAG_SYM, .uSym n⟩
  else if k = TAG_IDENT then
    match readU32c c with
    | none => .ub
    | some n => .ok ⟨TAG_IDENT, .uSym n⟩
  else if k = TAG_BOOL then .ok ⟨TAG_BOOL, .uBool (c.tag % 2)⟩
  else if k = TAG_NIL then .ok nilValue
  else if k = TAG_STR then
    if 2 ≤ c.data.length then
      let len := leVal (c.data.take 2)
      if 2 + len ≤ c.data.length then
        .ok ⟨TAG_STR, .uStr len ((c.data.drop 2).take len)⟩
      else .ub
    else .ub
  else .exit1

/-- `BVMPrimitiveKind`: the eight built-ins dispatched by `execute_primitive`.
The enum's declaration is outside `src/`; the set of constructors is exactly the
set of cases vm.c:154-198 handles. -/
inductive BVMPrimitiveKind where
  | PRIM_ADD | PRIM_SUB | PRIM_MUL | PRIM_DIV
  | PRIM_CMP_EQ | PRIM_CMP_LT | PRIM_CMP_GT | PRIM_NOT
deriving DecidableEq

/-- `primitive_of_proc` (vm.c:154-168): fixed index→primitive map, indices above 7
`exit(EXIT_FAILURE)`. -/
def primitive_of_proc (i : Nat) : CRes BVMPrimitiveKind :=
  if i = 0 then .ok .PRIM_ADD
  else if i = 1 then .ok .PRIM_SUB
  else if i = 2 then .ok .PRIM_MUL
  else if i = 3 then .ok .PRIM_DIV
  else if i = 4 then .ok .PRIM_CMP_EQ
  else if i = 5 then .ok .PRIM_CMP_LT
  else if i = 6 then .ok .PRIM_CMP_GT
  else if i = 7 then .ok .PRIM_NOT
  else .exit1

/-- `args[n].as.i`: `none` when the index is past the end of the `args` VLA (an
out-of-bounds read) or the `.as.i` view is unspecified. -/
def argI (args : List BVMValue) (n : Nat) : Option Int :=
  (args.get? n).bind fun v => asI v.un

/-- C `int64_t` range check: signed overflow is undefined behaviour. -/
def int64ok (i : Int) : Bool :=
  decide ((-9223372036854775808 : Int) ≤ i ∧ i < 9223372036854775808)

/-- C integer division: truncation toward zero. -/
def cQuot (a b : Int) : Int :=
  if (a < 0) = (b < 0) then ((a.natAbs / b.natAbs : Nat) : Int)
  else -((a.natAbs / b.natAbs : Nat) : Int)

/-- `execute_primitive` (vm.c:170-198).  Arithmetic results write `.as.i` with tag
`TAG_INT`; comparisons write the 0/1 `int` result through `.as.i` with tag
`TAG_BOOL` (the C assigns `.as.i`, not `.as.b`).  `ub` covers reads past the end
of the caller's `args` VLA, unspecified `.as.i` reads, signed overflow, and
division by zero (all C undefined behaviour at vm.c:173-193). -/
def execute_primitive (prim : BVMPrimitiveKind) (args : List BVMValue) : CRes BVMValue :=
  match prim with
  | .PRIM_ADD =>
    match argI args 0, argI args 1 with
    | some a, some b => if int64ok (a + b) then .ok ⟨TAG_INT, .uInt (a + b)⟩ else .ub
    | _, _ => .ub
  | .PRIM_SUB =>
    match argI args 0, argI args 1 with
    | some a, some b => if int64ok (a - b) then .ok ⟨TAG_INT, .uInt (a - b)⟩ else .ub
    | _, _ => .ub
  | .PRIM_MUL =>
    match argI args 0, argI args 1 with
    | some a, some b => if int64ok (a * b) then .ok ⟨TAG_INT, .uInt (a * b)⟩ else .ub
    | _, _ => .ub
  | .PRIM_DIV =>
    match argI args 0, argI args 1 with
    | some a, some b =>
      if b = 0 then .ub
      else if int64ok (cQuot a b) then .ok ⟨TAG_INT, .uInt (cQuot a b)⟩ else .ub
    | _, _ => .ub
  | .PRIM_CMP_EQ =>
    match argI args 0, argI args 1 with
    | some a, some b => .ok ⟨TAG_BOOL, .uInt (if a = b then 1 else 0)⟩
    | _, _ => .ub
  | .PRIM_CMP_LT =>
    match argI args 0, argI args 1 with
    | some a, some b => .ok ⟨TAG_BOOL, .uInt (if a < b then 1 else 0)⟩
    | _, _ => .ub
  | .PRIM_CMP_GT =>
    match argI args 0, argI args 1 with
    | some a, some b => .ok ⟨TAG_BOOL, .uInt (if b < a then 1 else 0)⟩
    | _, _ => .ub
  | .PRIM_NOT =>
    match argI args 0 with
    | some a => .ok ⟨TAG_BOOL, .uInt (if a = 0 then 1 else 0)⟩
    | none => .ub

/-- `alloc_env` (vm.c:224-245): grow the store if full (factor 2), append a
`calloc`-zeroed env, return the new state and index.  The `size` parameter is
`uint16_t`, so callers' values are taken mod 2^16. -/
def alloc_env (s : BVM) (parent size0 : Nat) : BVM × Nat :=
  let size := size0 % 65536
  let cap := if s.env_capacity ≤ s.envs.length then s.env_capacity * 2 else s.env_capacity
  ({ s with env_capacity := cap,
            envs := s.envs ++ [⟨parent, size, List.replicate size zeroValue⟩] },
   s.envs.length)

/-- `pop_stack` (vm.c:602-609): `none` is the stack-underflow `exit(EXIT_FAILURE)`. -/
def popVal (st : BVMStack) : Option (BVMValue × BVMStack) :=
  if st.top = 0 then none
  else some (st.data.getD (st.top - 1) undefValue, { st with top := st.top - 1 })

/-- `push_stack` (vm.c:611-617) followed by `pc++`: overflow at fixed capacity is
`exit(EXIT_FAILURE)`. -/
def pushNext (s : BVM) (v : BVMValue) : StepResult :=
  if s.stack.capacity ≤ s.stack.top then .exit 1
  else .next { s with
               stack := ⟨s.stack.capacity, s.stack.top + 1,
                         s.stack.data.set s.stack.top v⟩,
               pc := s.pc + 1 }

/-- Fetch the instruction at `pc` (callers guard `0 ≤ pc < length`). -/
def fetchInstr (s : BVM) : BVMInstruction :=
  s.program.bytecode.getD s.pc.toNat ⟨0, []⟩

/-- `OP_LOAD_CONST` (vm.c:652-667). -/
def stepLoadConst (s : BVM) (instr : BVMInstruction) : StepResult :=
  match instr.operand.head? with
  | none => .ub
  | some opc =>
    if opc.size < 4 then .exit 1
    else match readU32c opc with
      | none => .ub
      | some idx =>
        match s.program.constants.get? idx with
        | none => .ub
        | some c =>
          match make_value_from_constant c with
          | .ok v => pushNext s v
          | .exit1 => .exit 1
          | .ub => .ub

/-- `OP_LOAD_VAR` (vm.c:669-683): note there is no operand-size check here. -/
def stepLoadVar (s : BVM) (instr : BVMInstruction) : StepResult :=
  match instr.operand.head? with
  | none => .ub
  | some opc =>
    match readU32c opc with
    | none => .ub
    | some symId =>
      match s.envs.get? s.current_env with
      | none => .ub
      | some env =>
        if env.size ≤ symId then .exit 1
        else match env.slots.get? symId with
          | none => .ub
          | some v => pushNext s v

/-- `OP_STORE_VAR` (vm.c:685-707). -/
def stepStoreVar (s : BVM) (instr : BVMInstruction) : StepResult :=
  match instr.operand.head? with
  | none => .ub
  | some opc =>
    if opc.size < 4 then .exit 1
    else match readU32c opc with
      | none => .ub
      | some symId =>
        match s.envs.get? s.current_env with
        | none => .ub
        | some env =>
          if env.size ≤ symId then .exit 1
          else match popVal s.stack with
            | none => .exit 1
            | some (v, st) =>
              if env.slots.length ≤ symId then .ub
              else .next { s with
                           stack := st,
                           envs := s.envs.set s.current_env
                             { env with slots := env.slots.set symId v },
                           pc := s.pc + 1 }

/-- `OP_JMP` (vm.c:709-714): relative jump in instruction units. -/
def stepJmp (s : BVM) (instr : BVMInstruction) : StepResult :=
  match instr.operand.head? with
  | none => .ub
  | some opc =>
    match readI32c opc with
    | none => .ub
    | some off => .next { s with pc := s.pc + off }

/-- `OP_JMP_TRUE` (vm.c:716-726): pops the condition and branches on `cond.as.b`,
with no check of the value's tag. -/
def stepJmpTrue (s : BVM) (instr : BVMInstruction) : StepResult :=
  match instr.operand.head? with
  | none => .ub
  | some opc =>
    match readI32c opc with
    | none => .ub
    | some off =>
      match popVal s.stack with
      | none => .exit 1
      | some (v, st) =>
        match asB v.un with
        | none => .ub
        | some b =>
          if b ≠ 0 then .next { s with stack := st, pc := s.pc + off }
          else .next { s with stack := st, pc := s.pc + 1 }

/-- `OP_JMP_FALSE` (vm.c:728-738). -/
def stepJmpFalse (s : BVM) (instr : BVMInstruction) : StepResult :=
  match instr.operand.head? with
  | none => .ub
  | some opc =>
    match readI32c opc with
    | none => .ub
    | some off =>
      match popVal s.stack with
      | none => .exit 1
      | some (v, st) =>
        match asB v.un with
        | none => .ub
        | some b =>
          if b ≠ 0 then .next { s with stack := st, pc := s.pc + 1 }
          else .next { s with stack := st, pc := s.pc + off }

/-- `OP_RETURN` (vm.c:740-757): pop the return value and the top frame; the entry
frame (`return_pc = MAX`) halts, otherwise restore the caller env, truncate the
stack to `stack_base`, print the value to stdout (the `printf` at vm.c:752), push
it back and resume at `return_pc`. -/
def stepReturnOp (s : BVM) : StepResult :=
  match popVal s.stack with
  | none => .exit 1
  | some (ret, st) =>
    match s.frames with
    | [] => .ub
    | f :: rest =>
      if f.return_pc = UINT32_MAX then
        .next { s with stack := st, frames := rest, halted := true }
      else
        if s.stack.capacity ≤ f.stack_base then .exit 1
        else .next { s with
                     stack := ⟨s.stack.capacity, f.stack_base + 1,
                               s.stack.data.set f.stack_base ret⟩,
                     frames := rest,
                     current_env := f.env_idx,
                     outp := s.outp ++ [(ret.tag, asI ret.un)],
                     pc := (f.return_pc : Int) }

/-- `OP_MAKE_CLOSURE` (vm.c:765-785): allocate a `free_count`-slot env whose parent
is the current env, capture `free_vars`-indexed slots of the current env, push the
closure.  Only operand 0 is read. -/
def stepMakeClosure (s : BVM) (instr : BVMInstruction) : StepResult :=
  match instr.operand.head? with
  | none => .ub
  | some opc =>
    match readU32c opc with
    | none => .ub
    | some procIdx =>
      match s.program.procedures.get? procIdx with
      | none => .ub
      | some proc =>
        if 65536 ≤ proc.free_vars.length then .ub
        else
          let al := alloc_env s s.current_env proc.free_vars.length
          match proc.free_vars.mapM
              (fun symId => (al.1.envs.get? al.1.current_env).bind
                (fun cur => cur.slots.get? symId)) with
          | none => .ub
          | some captured =>
            match al.1.envs.get? al.2 with
            | none => .ub
            | some newEnv =>
              pushNext
                { al.1 with envs := al.1.envs.set al.2 { newEnv with slots := captured } }
                ⟨TAG_PROC, .uClosure procIdx al.2⟩

/-- `OP_LOAD_CLOSURE` (vm.c:787-800): read slot `idx` of the current env's parent;
`parent = MAX` sets the error flag; the slot index is not bounds-checked. -/
def stepLoadClosure (s : BVM) (instr : BVMInstruction) : StepResult :=
  match instr.operand.head? with
  | none => .ub
  | some opc =>
    match readU32c opc with
    | none => .ub
    | some idx =>
      match s.envs.get? s.current_env with
      | none => .ub
      | some cur =>
        if cur.parent = UINT32_MAX then .next { s with error := true }
        else
          match s.envs.get? cur.parent with
          | none => .ub
          | some penv =>
            match penv.slots.get? idx with
            | none => .ub
            | some v => pushNext s v

/-- `OP_STORE_CLOSURE` (vm.c:802-808): write slot `idx` of the current env's parent;
unlike `LOAD_CLOSURE` there is no `parent = MAX` check, so a missing parent is an
out-of-bounds access. -/
def stepStoreClosure (s : BVM) (instr : BVMInstruction) : StepResult :=
  match instr.operand.head? with
  | none => .ub
  | some opc =>
    match readU32c opc with
    | none => .ub
    | some idx =>
      match s.envs.get? s.current_env with
      | none => .ub
      | some cur =>
        match s.envs.get? cur.parent with
        | none => .ub
        | some penv =>
          if penv.slots.length ≤ idx then .ub
          else match popVal s.stack with
            | none => .exit 1
            | some (v, st) =>
              .next { s with
                      stack := st,
                      envs := s.envs.set cur.parent
                        { penv with slots := penv.slots.set idx v },
                      pc := s.pc + 1 }

/-- `OP_CALL` (vm.c:810-874): pop `argc` arguments (deepest is `args[0]`) and the
callee.  A non-`PROC` callee sets the error flag.  A primitive callee is applied
immediately (no arity or type check) and the result pushed.  Otherwise the arity
is checked, a fresh env with the arguments is allocated, a frame is pushed, and
control transfers to the procedure's entry. -/
def stepCall (s : BVM) (instr : BVMInstruction) : StepResult :=
  match instr.operand.head? with
  | none => .ub
  | some opc =>
    match readU32c opc with
    | none => .ub
    | some argc =>
      if s.stack.top < argc + 1 then .exit 1
      else
        let base := s.stack.top - argc - 1
        let args := (s.stack.data.drop (base + 1)).take argc
        let callee := s.stack.data.getD base undefValue
        let st : BVMStack := ⟨s.stack.capacity, base, s.stack.data⟩
        if callee.tag ≠ TAG_PROC then .next { s with stack := st, error := true }
        else
          match asClosure callee.un with
          | none => .ub
          | some (procIdx, envIdx) =>
            match s.program.procedures.get? procIdx with
            | none => .ub
            | some proc =>
              if proc.entry_pc = BVM_PRIMITIVE_ENTRY then
                match primitive_of_proc procIdx with
                | .exit1 => .exit 1
                | .ub => .ub
                | .ok prim =>
                  match execute_primitive prim args with
                  | .ok v => pushNext { s with stack := st } v
                  | .exit1 => .exit 1
                  | .ub => .ub
              else
                if argc ≠ proc.arity then .next { s with stack := st, error := true }
                else
                  let al := alloc_env { s with stack := st } envIdx
                    (proc.arity + proc.local_count)
                  match al.1.envs.get? al.2 with
                  | none => .ub
                  | some newEnv =>
                    if newEnv.slots.length < proc.arity then .ub
                    else
                      let slots := args.take proc.arity ++ newEnv.slots.drop proc.arity
                      let fcap := if al.1.frame_capacity ≤ al.1.frames.length then
                          al.1.frame_capacity * 2 else al.1.frame_capacity
                      .next { al.1 with
                              envs := al.1.envs.set al.2 { newEnv with slots := slots },
                              frame_capacity := fcap,
                              frames := (⟨(s.pc.toNat + 1) % 4294967296, s.current_env,
                                          st.top % 65536⟩ : BVMFrame) :: al.1.frames,
                              current_env := al.2,
                              pc := (proc.entry_pc : Int) }

/-- One iteration of the dispatch loop of `execute_bvm` (vm.c:628-883): the
`pc` bounds check, then the opcode switch.  Opcodes without a `case` (TAILCALL,
NEG, AND, OR, NOT, XOR and the ADD..CMP_GT group among them) fall to the
`default` branch, which sets the error flag. -/
def step (s : BVM) : StepResult :=
  if s.pc < 0 ∨ (s.program.bytecode.length : Int) ≤ s.pc then
    .next { s with error := true }
  else
    if (fetchInstr s).opcode = OP_HALT then .next { s with halted := true }
    else if (fetchInstr s).opcode = OP_POP then
      match popVal s.stack with
      | none => .exit 1
      | some (_, st) => .next { s with stack := st, pc := s.pc + 1 }
    else if (fetchInstr s).opcode = OP_LOAD_CONST then stepLoadConst s (fetchInstr s)
    else if (fetchInstr s).opcode = OP_LOAD_VAR then stepLoadVar s (fetchInstr s)
    else if (fetchInstr s).opcode = OP_STORE_VAR then stepStoreVar s (fetchInstr s)
    else if (fetchInstr s).opcode = OP_JMP then stepJmp s (fetchInstr s)
    else if (fetchInstr s).opcode = OP_JMP_TRUE then stepJmpTrue s (fetchInstr s)
    else if (fetchInstr s).opcode = OP_JMP_FALSE then stepJmpFalse s (fetchInstr s)
    else if (fetchInstr s).opcode = OP_RETURN then stepReturnOp s
    else if (fetchInstr s).opcode = OP_LABEL then .next { s with error := true }
    else if (fetchInstr s).opcode = OP_MAKE_CLOSURE then stepMakeClosure s (fetchInstr s)
    else if (fetchInstr s).opcode = OP_LOAD_CLOSURE then stepLoadClosure s (fetchInstr s)
    else if (fetchInstr s).opcode = OP_STORE_CLOSURE then stepStoreClosure s (fetchInstr s)
    else if (fetchInstr s).opcode = OP_CALL then stepCall s (fetchInstr s)
    else .next { s with error := true }

/-- `strncmp(stored, prim, stored_len) == 0` as `symbol_id_of` (vm.c:250) uses it:
compare at most `stored.length` bytes of the stored symbol name against the
NUL-terminated primitive name, stopping early at a difference or at a NUL. -/
def strncmpEq : List Nat → List Nat → Bool
  | [], _ => true
  | a :: rest, prim =>
    let b := prim.headD 0
    if a ≠ b then false
    else if a = 0 then true
    else strncmpEq rest prim.tail

/-- `symbol_id_of` (vm.c:248-256): scan the symbol table in order and return the id
of the first entry whose first `name_len` bytes `strncmp`-match the queried name;
`none` is the C function's `-1`. -/
def symbol_id_of : List BVMSymbolEntry → List Nat → Option Nat
  | [], _ => none
  | e :: rest, name =>
    if strncmpEq e.name name then some e.id else symbol_id_of rest name

/-- The primitive-name table of `init_bvm` (vm.c:530-539), as ASCII bytes:
index 0 → "+", 1 → "-", 2 → "*", 3 → "/", 4 → "=", 5 → "<", 6 → ">", 7 → "not". -/
def primNameBytes (i : Nat) : List Nat :=
  if i = 0 then [43]
  else if i = 1 then [45]
  else if i = 2 then [42]
  else if i = 3 then [47]
  else if i = 4 then [61]
  else if i = 5 then [60]
  else if i = 6 then [62]
  else if i = 7 then [110, 111, 116]
  else []

/-- The `PROC` value `init_bvm` installs for the primitive at procedure index `i`
(vm.c:547-550): `env_idx = MAX`. -/
def primProcValue (i : Nat) : BVMValue := ⟨TAG_PROC, .uClosure i UINT32_MAX⟩

/-- One iteration of the primitive-binding loop of `init_bvm` (vm.c:523-551) for
the primitive procedure at table index `i`.  `exit1` covers the
`primitive_of_proc` failure for a primitive index above 7 and the
"primitive symbol not found" exit (also taken when the `uint32_t` id converts to
a negative `int`); `ub` is a global-slot write out of bounds (the symbol's id is
not checked against `symbol_count`). -/
def installPrim (p : BVMProgram) (i : Nat) (s : BVM) : CRes BVM :=
  match primitive_of_proc i with
  | .exit1 => .exit1
  | .ub => .ub
  | .ok _ =>
    match symbol_id_of p.symbols (primNameBytes i) with
    | none => .exit1
    | some symId =>
      if 2147483648 ≤ symId then .exit1
      else
        match s.envs.get? s.global_env with
        | none => .ub
        | some g =>
          if g.slots.length ≤ symId then .ub
          else
            let g2 := { g with slots := g.slots.set symId (primProcValue i) }
            .ok { s with envs := s.envs.set s.global_env g2 }

/-- The primitive-binding loop of `init_bvm` (vm.c:523-551): walk the procedure
table with its index, skipping entries whose `entry_pc` is not the primitive
sentinel and installing a binding for each one that is. -/
def bindPrims (p : BVMProgram) : Nat → List BVMProcedure → BVM → CRes BVM
  | _, [], s => .ok s
  | i, proc :: rest, s =>
    if proc.entry_pc ≠ BVM_PRIMITIVE_ENTRY then bindPrims p (i + 1) rest s
    else
      match installPrim p i s with
      | .ok s2 => bindPrims p (i + 1) rest s2
      | .exit1 => .exit1
      | .ub => .ub

/-- The state `init_bvm` (vm.c:458-519) builds before primitive binding: stack of
capacity 256 (`malloc`'d, indeterminate contents), the global env at index 0 with
`parent = MAX`, `size = (uint16_t)symbol_count` and `calloc`-zeroed
`symbol_count` slots, and the entry frame `{return_pc = MAX, env_idx = 0,
stack_base = 0}`.  `pc = 0` models `execute_bvm`'s `pc = code_start`. -/
def initState (p : BVMProgram) : BVM :=
  { program := p,
    stack := ⟨256, 0, List.replicate 256 undefValue⟩,
    frames := [⟨UINT32_MAX, 0, 0⟩],
    frame_capacity := 64,
    envs := [⟨UINT32_MAX, p.symbols.length % 65536,
              List.replicate p.symbols.length zeroValue⟩],
    env_capacity := 64,
    current_env := 0,
    global_env := 0,
    halted := false,
    error := false,
    pc := 0,
    outp := [] }

/-- `init_bvm` (vm.c:458-552): build the initial state, then bind primitives. -/
def init_bvm (p : BVMProgram) : CRes BVM :=
  bindPrims p 0 p.procedures (initState p)

/-- Outcome of running the dispatch loop with bounded fuel. -/
inductive RunResult where
  | done : BVM → RunResult
  | exited : Nat → RunResult
  | ub : RunResult
  | fuelOut : BVM → RunResult
deriving DecidableEq

/-- The dispatch loop of `execute_bvm` (vm.c:633): iterate `step` while neither
`error` nor `halted` is set. -/
def run : Nat → BVM → RunResult
  | 0, s => .fuelOut s
  | n + 1, s =>
    if s.error || s.halted then .done s
    else
      match step s with
      | .next s2 => run n s2
      | .exit c => .exited c
      | .ub => .ub

/-- Load-free part of `main` (vm.c:885-904): initialize the VM from a loaded
program and run `execute_bvm`. -/
def runProgram (p : BVMProgram) (fuel : Nat) : RunResult :=
  match init_bvm p with
  | .ok s => run fuel s
  | .exit1 => .exited 1
  | .ub => .ub

/-- The process exit status of `main` (vm.c:885-904): `init_bvm` may `exit(1)`;
when `execute_bvm`'s loop terminates (halted or error flag), `main` frees its
state and falls off the end, so the process exits with status 0 regardless of
the error flag.  `none` means the run was cut off (fuel) or reached undefined
behaviour. -/
def mainExitStatus (p : BVMProgram) (fuel : Nat) : Option Nat :=
  match runProgram p fuel with
  | .done _ => some 0
  | .exited c => some c
  | .ub => none
  | .fuelOut _ => none

/-- The final state of a completed run, if the loop terminated. -/
def RunResult.finalState : RunResult → Option BVM
  | .done s => some s
  | _ => none

/-- The error flag of a completed run. -/
def RunResult.errorFlag : RunResult → Bool
  | .done s => s.error
  | _ => false

/-- The stdout writes of a completed run. -/
def RunResult.stdoutWrites : RunResult → List (Nat × Option Int)
  | .done s => s.outp
  | _ => []

/-- The stack cursor of a completed run. -/
def RunResult.stackTop : RunResult → Option Nat
  | .done s => some s.stack.top
  | _ => none

/-- The value on top of the stack of a completed run. -/
def RunResult.topValue : RunResult → Option BVMValue
  | .done s => if s.stack.top = 0 then none else s.stack.data.get? (s.stack.top - 1)
  | _ => none

/-- One iteration of the live dispatch loop: the loop condition holds and `step`
produced a successor state. -/
def StepRel (s s2 : BVM) : Prop :=
  s.error = false ∧ s.halted = false ∧ step s = .next s2

/-- Reachability by the dispatch loop. -/
def Reaches : BVM → BVM → Prop := Relation.ReflTransGen StepRel

/-- A 4-byte little-endian `u32` operand datum, as the loader produces for
`TAG_INT`-tagged inline operands (tag byte `TAG_INT << 3`). -/
def u32op (k : Nat) : BVMConstant := ⟨8, 4, [k % 256, k / 256 % 256, 0, 0]⟩

/-- A placeholder non-primitive procedure entry. -/
def dummyProc : BVMProcedure := ⟨0, 0, 0, []⟩

/-- Program whose bytecode is a single `LABEL`: drives the dispatch loop into the
"unexpected LABEL" error path. -/
def progLabel : BVMProgram := ⟨[], [], [], [⟨OP_LABEL, [u32op 0]⟩]⟩

/-- Program whose bytecode is a single direct `ADD` opcode. -/
def progAdd : BVMProgram := ⟨[], [], [], [⟨OP_ADD, []⟩]⟩

/-- Program with one symbol `"x"` (id 0), no procedures, bytecode `[HALT]`. -/
def progSym : BVMProgram := ⟨[⟨0, [120]⟩], [], [], [⟨OP_HALT, []⟩]⟩

/-- Program binding the `+` primitive (procedure index 0) to symbol `"+"` (id 0)
and calling it with three INT arguments: `LOAD_VAR 0; LOAD_CONST 0..2; CALL 3`. -/
def progCall3 : BVMProgram :=
  ⟨[⟨0, [43]⟩], [u32op 1, u32op 2, u32op 3], [⟨BVM_PRIMITIVE_ENTRY, 2, 0, []⟩],
   [⟨OP_LOAD_VAR, [u32op 0]⟩, ⟨OP_LOAD_CONST, [u32op 0]⟩, ⟨OP_LOAD_CONST, [u32op 1]⟩,
    ⟨OP_LOAD_CONST, [u32op 2]⟩, ⟨OP_CALL, [u32op 3]⟩, ⟨OP_HALT, []⟩]⟩

/-- Program making and calling a zero-argument closure whose body returns the
INT constant 7: `MAKE_CLOSURE 0; CALL 0; HALT; LOAD_CONST 0; RETURN`. -/
def progRet : BVMProgram :=
  ⟨[], [u32op 7], [⟨3, 0, 0, []⟩],
   [⟨OP_MAKE_CLOSURE, [u32op 0, u32op 0]⟩, ⟨OP_CALL, [u32op 0]⟩, ⟨OP_HALT, []⟩,
    ⟨OP_LOAD_CONST, [u32op 0]⟩, ⟨OP_RETURN, []⟩]⟩

/-- Program whose symbol table holds `"n"` (id 0) before `"not"` (id 1), with the
`not` primitive at procedure index 7 (indices 0-6 are non-primitive dummies). -/
def progShadow : BVMProgram :=
  ⟨[⟨0, [110]⟩, ⟨1, [110, 111, 116]⟩], [],
   [dummyProc, dummyProc, dummyProc, dummyProc, dummyProc, dummyProc, dummyProc,
    ⟨BVM_PRIMITIVE_ENTRY, 1, 0, []⟩],
   [⟨OP_HALT, []⟩]⟩

/-- The slot array of the global environment after `init_bvm`, when
initialization succeeds. -/
def initGlobalSlots (p : BVMProgram) : Option (List BVMValue) :=
  match init_bvm p with
  | .ok s => (s.envs.get? s.global_env).map BVMEnv.slots
  | .exit1 => none
  | .ub => none

/-- The successfully initialized VM state, when `init_bvm` does not abort. -/
def initOk (p : BVMProgram) : Option BVM :=
  match init_bvm p with
  | .ok s => some s
  | .exit1 => none
  | .ub => none

/-- The three state properties asserted by the spec's reachable-state invariant:
`stack.top ≤ stack.capacity`, `current_env < env_count`, and
`frame_count ≥ 1 ∨ halted`. -/
def ClaimedInv (s : BVM) : Prop :=
  s.stack.top ≤ s.stack.capacity ∧ s.current_env < s.envs.length ∧
    (1 ≤ s.frames.length ∨ s.halted = true)

/-- Strengthened machine invariant used to push `ClaimedInv` through the loop:
additionally every live frame's `env_idx` is a valid environment index and the
bottom frame is the entry frame (sentinel `return_pc`). -/
def MachInv (s : BVM) : Prop :=
  s.stack.top ≤ s.stack.capacity ∧
  s.current_env < s.envs.length ∧
  (s.frames ≠ [] ∨ s.halted = true) ∧
  (∀ f ∈ s.frames, f.env_idx < s.envs.length) ∧
  (∀ f, s.frames.getLast? = some f → f.return_pc = UINT32_MAX)

/-- A mid-execution state about to execute `JMP_TRUE 2` with a non-BOOL (INT 5)
condition on top of the stack. -/
def sJmpW : BVM :=
  { program := ⟨[], [], [],
      [⟨OP_JMP_TRUE, [u32op 2]⟩, ⟨OP_HALT, []⟩, ⟨OP_HALT, []⟩]⟩,
    stack := ⟨256, 1, (List.replicate 256 undefValue).set 0 ⟨TAG_INT, .uInt 5⟩⟩,
    frames := [⟨UINT32_MAX, 0, 0⟩],
    frame_capacity := 64,
    envs := [⟨UINT32_MAX, 0, []⟩],
    env_capacity := 64,
    current_env := 0,
    global_env := 0,
    halted := false,
    error := false,
    pc := 0,
    outp := [] }

/-- A mid-execution state about to execute a non-final `RETURN`: two frames, the
top one `{return_pc = 1, env_idx = 0, stack_base = 1}`, return value `INT 9` on
top of a three-deep stack. -/
def sRetW : BVM :=
  { program := ⟨[], [], [], [⟨OP_RETURN, []⟩, ⟨OP_HALT, []⟩]⟩,
    stack := ⟨256, 3,
      (((List.replicate 256 undefValue).set 0 ⟨TAG_INT, .uInt 1⟩).set 1
          ⟨TAG_INT, .uInt 2⟩).set 2 ⟨TAG_INT, .uInt 9⟩⟩,
    frames := [⟨1, 0, 1⟩, ⟨UINT32_MAX, 0, 0⟩],
    frame_capacity := 64,
    envs := [⟨UINT32_MAX, 0, []⟩, ⟨0, 0, []⟩],
    env_capacity := 64,
    current_env := 1,
    global_env := 0,
    halted := false,
    error := false,
    pc := 0,
    outp := [] }

/-- A mid-execution state about to execute `CALL 3` on the `+` primitive with
three arguments whose integer payloads are 10, 20, 99 (written through `.as.i`
under non-INT tags). -/
def sCallW : BVM :=
  { program := ⟨[], [], [⟨BVM_PRIMITIVE_ENTRY, 2, 0, []⟩],
      [⟨OP_CALL, [u32op 3]⟩, ⟨OP_HALT, []⟩]⟩,
    stack := ⟨256, 4,
      ((((List.replicate 256 undefValue).set 0 ⟨TAG_PROC, .uClosure 0 UINT32_MAX⟩).set 1
            ⟨TAG_BOOL, .uInt 10⟩).set 2 ⟨TAG_NIL, .uInt 20⟩).set 3 ⟨TAG_STR, .uInt 99⟩⟩,
    frames := [⟨UINT32_MAX, 0, 0⟩],
    frame_capacity := 64,
    envs := [⟨UINT32_MAX, 0, []⟩],
    env_capacity := 64,
    current_env := 0,
    global_env := 0,
    halted := false,
    error := false,
    pc := 0,
    outp := [] }

lemma getLast?_cons_of_ne {α : Type} (a : α) (l : List α) (h : l ≠ []) :
    (a :: l).getLast? = l.getLast? := by
  cases l with
  | nil => exact absurd rfl h
  | cons b t => exact List.getLast?_cons_cons

lemma popVal_eq_some {st : BVMStack} {pr : BVMValue × BVMStack} (h : popVal st = some pr) :
    st.top ≠ 0 ∧ pr.2 = ⟨st.capacity, st.top - 1, st.data⟩ ∧
      pr.1 = st.data.getD (st.top - 1) undefValue := by
  unfold popVal at h
  split at h
  · cases h
  · cases h
    exact ⟨by assumption, rfl, rfl⟩

lemma pushNext_eq_next {s : BVM} {v : BVMValue} {b : BVM} (h : pushNext s v = .next b) :
    s.stack.top < s.stack.capacity ∧
      b = { s with stack := ⟨s.stack.capacity, s.stack.top + 1,
                             s.stack.data.set s.stack.top v⟩,
                   pc := s.pc + 1 } := by
  unfold pushNext at h
  split at h
  · cases h
  · cases h
    exact ⟨by omega, rfl⟩

lemma bindPrims_all_nonprim (p : BVMProgram) (l : List BVMProcedure) (i : Nat) (s : BVM)
    (h : ∀ q ∈ l, q.entry_pc ≠ BVM_PRIMITIVE_ENTRY) : bindPrims p i l s = .ok s := by
  induction l generalizing i with
  | nil => rfl
  | cons a t ih =>
    have ha := h a (List.mem_cons_self a t)
    rw [bindPrims, if_pos ha]
    exact ih (i + 1) (fun q hq => h q (List.mem_cons_of_mem a hq))

/-- C1: the claim says a runtime error that sets the error flag makes the process
exit with status 1; on the program `[LABEL]` the dispatch loop sets the error
flag, `execute_bvm` returns, and `main` falls off its end, so the process exits
with status 0. -/
theorem claim_C1_label_error_exits_zero :
    (runProgram progLabel 3).errorFlag = true ∧ mainExitStatus progLabel 3 = some 0 :=
  ⟨rfl, rfl⟩

/-- C2 counterexample: executing a direct `ADD` opcode does not pop two operands
and push an INT; it sets the error flag with the stack untouched (on an empty
stack there is not even an underflow abort, showing nothing was popped). -/
theorem claim_C2_add_is_unknown_opcode :
    (runProgram progAdd 3).errorFlag = true ∧ (runProgram progAdd 3).stackTop = some 0 :=
  ⟨rfl, rfl⟩

/-- C3 counterexample: after initializing the VM for a program with one symbol and
no primitives, the single global slot holds the all-zero-bytes value (tag `0`),
which is not the NIL value (tag `TAG_NIL = 6`). -/
theorem claim_C3_global_slot_is_zero_not_nil :
    initGlobalSlots progSym = some [zeroValue] ∧ zeroValue ≠ nilValue :=
  ⟨rfl, by decide⟩

/-- C4: applying the division primitive to a second INT operand equal to zero
reaches the unchecked C integer division at vm.c:182, which is undefined
behaviour (modelled as the `ub` abort): no result value is produced. -/
theorem claim_C4_div_by_zero_is_ub :
    execute_primitive .PRIM_DIV [⟨TAG_INT, .uInt 1⟩, ⟨TAG_INT, .uInt 0⟩] = .ub :=
  rfl

/-- C5 counterexample: `CALL 3` on the `+` primitive (arity 2 per the claim) is
not a runtime error: the VM pops all three arguments, applies `+` to the first
two, pushes `INT 3`, and halts normally with exit status 0. -/
theorem claim_C5_primitive_arity_unchecked :
    (runProgram progCall3 20).errorFlag = false ∧
      (runProgram progCall3 20).topValue = some ⟨TAG_INT, .uInt 3⟩ ∧
      mainExitStatus progCall3 20 = some 0 :=
  ⟨rfl, rfl, rfl⟩

/-- C6: the claim says the VM writes nothing to stdout; running a program with
one non-final `RETURN` produces a stdout write (the `printf` at vm.c:752) while
the run still halts normally. -/
theorem claim_C6_return_prints_to_stdout :
    (runProgram progRet 8).stdoutWrites = [(TAG_INT, some 7)] ∧
      mainExitStatus progRet 8 = some 0 :=
  ⟨rfl, rfl⟩

/-- C2 amended: an arithmetic (`ADD`, `SUB`, `MUL`, `DIV`) or comparison
(`CMP_EQ`, `CMP_LT`, `CMP_GT`) opcode appearing directly in the bytecode is not
implemented by the dispatch loop: executing it falls to the `default` branch,
which sets the error flag and terminates the loop, leaving the rest of the state
(in particular the value stack) unchanged. -/
theorem claim_C2_direct_arith_sets_error (s : BVM) (instr : BVMInstruction)
    (h1 : 0 ≤ s.pc) (h2 : s.pc < (s.program.bytecode.length : Int))
    (hfetch : fetchInstr s = instr)
    (hop : instr.opcode = OP_ADD ∨ instr.opcode = OP_SUB ∨ instr.opcode = OP_MUL ∨
      instr.opcode = OP_DIV ∨ instr.opcode = OP_CMP_EQ ∨ instr.opcode = OP_CMP_LT ∨
      instr.opcode = OP_CMP_GT) :
    step s = .next { s with error := true } := by
  have hg : ¬(s.pc < 0 ∨ (s.program.bytecode.length : Int) ≤ s.pc) := by omega
  unfold step
  rcases hop with h | h | h | h | h | h | h <;>
    simp [hg, hfetch, h, OP_ADD, OP_SUB, OP_MUL, OP_DIV, OP_CMP_EQ, OP_CMP_LT,
      OP_CMP_GT, OP_HALT, OP_POP, OP_LOAD_CONST, OP_LOAD_VAR, OP_STORE_VAR, OP_JMP,
      OP_JMP_TRUE, OP_JMP_FALSE, OP_RETURN, OP_LABEL, OP_MAKE_CLOSURE,
      OP_LOAD_CLOSURE, OP_STORE_CLOSURE, OP_CALL]

/-- Witness for C2 amended at the concrete program `[ADD]`. -/
theorem claim_C2_direct_arith_sets_error_witness :
    (0 ≤ (initState progAdd).pc ∧
      (initState progAdd).pc < ((initState progAdd).program.bytecode.length : Int) ∧
      fetchInstr (initState progAdd) = ⟨OP_ADD, []⟩) ∧
      step (initState progAdd) = .next { initState progAdd with error := true } :=
  ⟨⟨by decide, by decide, by decide⟩,
    claim_C2_direct_arith_sets_error (initState progAdd) ⟨OP_ADD, []⟩ (by decide)
      (by decide) (by decide) (Or.inl rfl)⟩

/-- C3 amended: after `init_bvm` on a program with no primitive procedures, the
environment store holds exactly the global environment, with `parent = MAX` and
`symbol_count` allocated slots, and every slot holds the all-zero-bytes value
(`calloc`), whose tag `0` differs from `TAG_NIL`.  (Slots receiving a primitive
binding during initialization hold a `PROC` value instead.) -/
theorem claim_C3_init_global_env (p : BVMProgram) (s : BVM)
    (hnp : ∀ q ∈ p.procedures, q.entry_pc ≠ BVM_PRIMITIVE_ENTRY)
    (h : init_bvm p = .ok s) :
    s.envs.map (fun e => (e.parent, e.slots.length)) = [(UINT32_MAX, p.symbols.length)] ∧
      ∀ e ∈ s.envs, ∀ v ∈ e.slots, v = zeroValue := by
  rw [init_bvm, bindPrims_all_nonprim p p.procedures 0 (initState p) hnp] at h
  cases h
  constructor
  · simp only [initState, List.map_cons, List.map_nil, List.length_replicate]
  · intro e he v hv
    have he2 : e = ⟨UINT32_MAX, p.symbols.length % 65536,
        List.replicate p.symbols.length zeroValue⟩ := by
      simp only [initState, List.mem_singleton] at he
      exact he
    rw [he2] at hv
    exact List.eq_of_mem_replicate hv

/-- Witness for C3 amended at the one-symbol program. -/
theorem claim_C3_init_global_env_witness :
    (∀ q ∈ progSym.procedures, q.entry_pc ≠ BVM_PRIMITIVE_ENTRY) ∧
      init_bvm progSym = .ok (initState progSym) ∧
      ((initState progSym).envs.map (fun e => (e.parent, e.slots.length)) =
          [(UINT32_MAX, progSym.symbols.length)] ∧
        ∀ e ∈ (initState progSym).envs, ∀ v ∈ e.slots, v = zeroValue) :=
  ⟨by decide, rfl, claim_C3_init_global_env progSym (initState progSym) (by decide) rfl⟩

/-- C7: a `RETURN` whose popped frame has `return_pc ≠ MAX` restores
`current_env` to the frame's `env_idx`, sets `pc` to the frame's `return_pc`,
leaves `stack.top = stack_base + 1`, and the value at the new top of the stack
is the return value popped just before the frame was discarded. -/
theorem claim_C7_return_nonfinal (s : BVM) (f : BVMFrame) (rest : List BVMFrame)
    (hf : s.frames = f :: rest)
    (hnf : f.return_pc ≠ UINT32_MAX)
    (htop : 1 ≤ s.stack.top)
    (hsb : f.stack_base < s.stack.capacity)
    (hlen : s.stack.data.length = s.stack.capacity) :
    ∃ s2, stepReturnOp s = .next s2 ∧
      s2.current_env = f.env_idx ∧
      s2.pc = (f.return_pc : Int) ∧
      s2.stack.top = f.stack_base + 1 ∧
      s2.stack.data.get? f.stack_base =
        some (s.stack.data.getD (s.stack.top - 1) undefValue) := by
  have hpop : popVal s.stack = some (s.stack.data.getD (s.stack.top - 1) undefValue,
      ⟨s.stack.capacity, s.stack.top - 1, s.stack.data⟩) := by
    unfold popVal
    rw [if_neg (by omega)]
  unfold stepReturnOp
  rw [hpop, hf]
  simp only []
  rw [if_neg hnf, if_neg (by omega : ¬ s.stack.capacity ≤ f.stack_base)]
  refine ⟨_, rfl, rfl, rfl, rfl, ?_⟩
  exact List.get?_set_eq_of_lt _ (by omega)

/-- Witness for C7 at the concrete two-frame state `sRetW`. -/
theorem claim_C7_return_nonfinal_witness :
    (sRetW.frames = (⟨1, 0, 1⟩ : BVMFrame) :: [⟨UINT32_MAX, 0, 0⟩] ∧
      (1 : Nat) ≠ UINT32_MAX ∧ 1 ≤ sRetW.stack.top ∧
      (1 : Nat) < sRetW.stack.capacity ∧
      sRetW.stack.data.length = sRetW.stack.capacity) ∧
      (∃ s2, stepReturnOp sRetW = .next s2 ∧
        s2.current_env = 0 ∧
        s2.pc = ((1 : Nat) : Int) ∧
        s2.stack.top = 1 + 1 ∧
        s2.stack.data.get? 1 =
          some (sRetW.stack.data.getD (sRetW.stack.top - 1) undefValue)) :=
  ⟨⟨rfl, by decide, by decide, by decide, by decide⟩,
    claim_C7_return_nonfinal sRetW ⟨1, 0, 1⟩ [⟨UINT32_MAX, 0, 0⟩] rfl (by decide)
      (by decide) (by decide) (by decide)⟩

lemma step_eq_stepJmpTrue (s : BVM) (instr : BVMInstruction)
    (h1 : 0 ≤ s.pc) (h2 : s.pc < (s.program.bytecode.length : Int))
    (hfetch : fetchInstr s = instr) (h : instr.opcode = OP_JMP_TRUE) :
    step s = stepJmpTrue s instr := by
  have hg : ¬(s.pc < 0 ∨ (s.program.bytecode.length : Int) ≤ s.pc) := by omega
  simp [step, hg, hfetch, h, OP_JMP_TRUE, OP_HALT, OP_POP, OP_LOAD_CONST,
    OP_LOAD_VAR, OP_STORE_VAR, OP_JMP]

lemma step_eq_stepJmpFalse (s : BVM) (instr : BVMInstruction)
    (h1 : 0 ≤ s.pc) (h2 : s.pc < (s.program.bytecode.length : Int))
    (hfetch : fetchInstr s = instr) (h : instr.opcode = OP_JMP_FALSE) :
    step s = stepJmpFalse s instr := by
  have hg : ¬(s.pc < 0 ∨ (s.program.bytecode.length : Int) ≤ s.pc) := by omega
  simp [step, hg, hfetch, h, OP_JMP_FALSE, OP_JMP_TRUE, OP_HALT, OP_POP,
    OP_LOAD_CONST, OP_LOAD_VAR, OP_STORE_VAR, OP_JMP]

lemma stepJmpTrue_spec (s : BVM) (instr : BVMInstruction) (opc : BVMConstant)
    (off : Int) (v : BVMValue) (b : Nat)
    (hoperand : instr.operand.head? = some opc)
    (hoff : readI32c opc = some off)
    (htop : 1 ≤ s.stack.top)
    (hv : s.stack.data.getD (s.stack.top - 1) undefValue = v)
    (hb : asB v.un = some b) :
    stepJmpTrue s instr = .next
      { s with stack := ⟨s.stack.capacity, s.stack.top - 1, s.stack.data⟩,
               pc := if b ≠ 0 then s.pc + off else s.pc + 1 } := by
  have hpop : popVal s.stack = some (s.stack.data.getD (s.stack.top - 1) undefValue,
      ⟨s.stack.capacity, s.stack.top - 1, s.stack.data⟩) := by
    unfold popVal
    rw [if_neg (by omega)]
  unfold stepJmpTrue
  simp only [hoperand, hoff, hpop, hv, hb]
  by_cases hbz : b = 0 <;> simp [hbz]

lemma stepJmpFalse_spec (s : BVM) (instr : BVMInstruction) (opc : BVMConstant)
    (off : Int) (v : BVMValue) (b : Nat)
    (hoperand : instr.operand.head? = some opc)
    (hoff : readI32c opc = some off)
    (htop : 1 ≤ s.stack.top)
    (hv : s.stack.data.getD (s.stack.top - 1) undefValue = v)
    (hb : asB v.un = some b) :
    stepJmpFalse s instr = .next
      { s with stack := ⟨s.stack.capacity, s.stack.top - 1, s.stack.data⟩,
               pc := if b ≠ 0 then s.pc + 1 else s.pc + off } := by
  have hpop : popVal s.stack = some (s.stack.data.getD (s.stack.top - 1) undefValue,
      ⟨s.stack.capacity, s.stack.top - 1, s.stack.data⟩) := by
    unfold popVal
    rw [if_neg (by omega)]
  unfold stepJmpFalse
  simp only [hoperand, hoff, hpop, hv, hb]
  by_cases hbz : b = 0 <;> simp [hbz]

/-- C10: `JMP_TRUE` / `JMP_FALSE` never raise a type error: whatever the tag of
the popped condition value, the step succeeds with the error flag unchanged,
and the branch is decided solely by the value's `.as.b` byte view. -/
theorem claim_C10_jmp_cond_untyped (s : BVM) (instr : BVMInstruction)
    (opc : BVMConstant) (off : Int) (v : BVMValue) (b : Nat)
    (h1 : 0 ≤ s.pc) (h2 : s.pc < (s.program.bytecode.length : Int))
    (hfetch : fetchInstr s = instr)
    (hop : instr.opcode = OP_JMP_TRUE ∨ instr.opcode = OP_JMP_FALSE)
    (hoperand : instr.operand.head? = some opc)
    (hoff : readI32c opc = some off)
    (htop : 1 ≤ s.stack.top)
    (hv : s.stack.data.getD (s.stack.top - 1) undefValue = v)
    (hb : asB v.un = some b) :
    ∃ s2, step s = .next s2 ∧
      s2.error = s.error ∧ s2.halted = s.halted ∧
      s2.stack.top = s.stack.top - 1 ∧
      (instr.opcode = OP_JMP_TRUE →
        s2.pc = if b ≠ 0 then s.pc + off else s.pc + 1) ∧
      (instr.opcode = OP_JMP_FALSE →
        s2.pc = if b ≠ 0 then s.pc + 1 else s.pc + off) := by
  rcases hop with h | h
  · rw [step_eq_stepJmpTrue s instr h1 h2 hfetch h,
      stepJmpTrue_spec s instr opc off v b hoperand hoff htop hv hb]
    refine ⟨_, rfl, rfl, rfl, rfl, fun _ => rfl, fun hc => ?_⟩
    rw [h] at hc
    exact absurd hc (by decide)
  · rw [step_eq_stepJmpFalse s instr h1 h2 hfetch h,
      stepJmpFalse_spec s instr opc off v b hoperand hoff htop hv hb]
    refine ⟨_, rfl, rfl, rfl, rfl, fun hc => ?_, fun _ => rfl⟩
    rw [h] at hc
    exact absurd hc (by decide)

/-- Witness for C10 at the concrete state `sJmpW`: an INT-tagged condition value
drives `JMP_TRUE` without any error. -/
theorem claim_C10_jmp_cond_untyped_witness :
    (0 ≤ sJmpW.pc ∧ sJmpW.pc < (sJmpW.program.bytecode.length : Int) ∧
      fetchInstr sJmpW = ⟨OP_JMP_TRUE, [u32op 2]⟩ ∧
      (⟨OP_JMP_TRUE, [u32op 2]⟩ : BVMInstruction).operand.head? = some (u32op 2) ∧
      readI32c (u32op 2) = some 2 ∧ 1 ≤ sJmpW.stack.top ∧
      sJmpW.stack.data.getD (sJmpW.stack.top - 1) undefValue = ⟨TAG_INT, .uInt 5⟩ ∧
      asB (BVMUnion.uInt 5) = some 5) ∧
      (∃ s2, step sJmpW = .next s2 ∧
        s2.error = sJmpW.error ∧ s2.halted = sJmpW.halted ∧
        s2.stack.top = sJmpW.stack.top - 1 ∧
        ((⟨OP_JMP_TRUE, [u32op 2]⟩ : BVMInstruction).opcode = OP_JMP_TRUE →
          s2.pc = if (5 : Nat) ≠ 0 then sJmpW.pc + 2 else sJmpW.pc + 1) ∧
        ((⟨OP_JMP_TRUE, [u32op 2]⟩ : BVMInstruction).opcode = OP_JMP_FALSE →
          s2.pc = if (5 : Nat) ≠ 0 then sJmpW.pc + 1 else sJmpW.pc + 2)) :=
  ⟨⟨by decide, by decide, by decide, by decide, by decide, by decide, by decide,
      by decide⟩,
    claim_C10_jmp_cond_untyped sJmpW ⟨OP_JMP_TRUE, [u32op 2]⟩ (u32op 2) 2
      ⟨TAG_INT, .uInt 5⟩ 5 (by decide) (by decide) (by decide) (Or.inl rfl)
      (by decide) (by decide) (by decide) (by decide) (by decide)⟩

/-- C5 amended: a `CALL` of a primitive procedure checks neither the argument
count nor the argument types: it pops `argc` arguments and the callee and applies
the primitive directly to the integer payloads of the first operand slots (read
through `.as.i` whatever the tags).  Shown for the `+` primitive (procedure
index 0) with any `argc ≥ 2`: the step succeeds, the error flag is untouched,
the extra arguments are consumed, and `INT(args0 + args1)` is pushed. -/
theorem claim_C5_prim_call_unchecked (s : BVM) (instr : BVMInstruction)
    (opc : BVMConstant) (argc : Nat) (a b : Int) (ta tb envIdx : Nat)
    (pr : BVMProcedure)
    (hoperand : instr.operand.head? = some opc)
    (hargc : readU32c opc = some argc)
    (h2 : 2 ≤ argc)
    (htop : argc + 1 ≤ s.stack.top)
    (hcap : s.stack.top ≤ s.stack.capacity)
    (hlen : s.stack.data.length = s.stack.capacity)
    (hcallee : s.stack.data.getD (s.stack.top - argc - 1) undefValue =
      ⟨TAG_PROC, .uClosure 0 envIdx⟩)
    (henv : envIdx < 4294967296)
    (hproc : s.program.procedures.get? 0 = some pr)
    (hprim : pr.entry_pc = BVM_PRIMITIVE_ENTRY)
    (ha : s.stack.data.get? (s.stack.top - argc) = some ⟨ta, .uInt a⟩)
    (hb : s.stack.data.get? (s.stack.top - argc + 1) = some ⟨tb, .uInt b⟩)
    (hrange : int64ok (a + b) = true) :
    ∃ s2, stepCall s instr = .next s2 ∧
      s2.error = s.error ∧ s2.halted = s.halted ∧
      s2.stack.top = s.stack.top - argc ∧
      s2.stack.data.get? (s.stack.top - argc - 1) = some ⟨TAG_INT, .uInt (a + b)⟩ ∧
      s2.pc = s.pc + 1 := by
  have hsub : s.stack.top - argc - 1 + 1 = s.stack.top - argc := by omega
  have hargs0 : ((s.stack.data.drop (s.stack.top - argc)).take argc).get? 0 =
      some ⟨ta, .uInt a⟩ := by
    rw [List.get?_eq_getElem?, List.getElem?_take, if_pos (by omega), List.getElem?_drop,
      Nat.add_zero, ← List.get?_eq_getElem?]
    exact ha
  have hargs1 : ((s.stack.data.drop (s.stack.top - argc)).take argc).get? 1 =
      some ⟨tb, .uInt b⟩ := by
    rw [List.get?_eq_getElem?, List.getElem?_take, if_pos (by omega), List.getElem?_drop,
      ← List.get?_eq_getElem?]
    exact hb
  have hexec : execute_primitive .PRIM_ADD
      ((s.stack.data.drop (s.stack.top - argc)).take argc) = .ok ⟨TAG_INT, .uInt (a + b)⟩ := by
    unfold execute_primitive
    rw [show argI ((s.stack.data.drop (s.stack.top - argc)).take argc) 0 = some a by
        rw [argI, hargs0]; rfl,
      show argI ((s.stack.data.drop (s.stack.top - argc)).take argc) 1 = some b by
        rw [argI, hargs1]; rfl]
    simp only [hrange, if_true]
  unfold stepCall
  simp only [hoperand, hargc]
  rw [if_neg (by omega : ¬ s.stack.top < argc + 1)]
  simp only [hcallee, hsub]
  rw [if_neg (by simp [TAG_PROC])]
  simp only [asClosure, Nat.zero_mod, Nat.mod_eq_of_lt henv, hproc]
  rw [if_pos hprim]
  simp only [show primitive_of_proc 0 = .ok .PRIM_ADD from rfl, hexec]
  unfold pushNext
  rw [if_neg (by omega : ¬ s.stack.capacity ≤ s.stack.top - argc - 1)]
  refine ⟨_, rfl, rfl, rfl,
    by show s.stack.top - argc - 1 + 1 = s.stack.top - argc; omega, ?_, rfl⟩
  show (s.stack.data.set (s.stack.top - argc - 1) ⟨TAG_INT, .uInt (a + b)⟩).get?
      (s.stack.top - argc - 1) = some ⟨TAG_INT, .uInt (a + b)⟩
  exact List.get?_set_eq_of_lt _ (by omega)

/-- Witness for C5 amended at the concrete state `sCallW`: `CALL 3` on `+` with
arguments tagged BOOL, NIL and STR succeeds and pushes `INT 30`. -/
theorem claim_C5_prim_call_unchecked_witness :
    ((⟨OP_CALL, [u32op 3]⟩ : BVMInstruction).operand.head? = some (u32op 3) ∧
      readU32c (u32op 3) = some 3 ∧ (2 : Nat) ≤ 3 ∧
      3 + 1 ≤ sCallW.stack.top ∧ sCallW.stack.top ≤ sCallW.stack.capacity ∧
      sCallW.stack.data.length = sCallW.stack.capacity ∧
      sCallW.stack.data.getD (sCallW.stack.top - 3 - 1) undefValue =
        ⟨TAG_PROC, .uClosure 0 UINT32_MAX⟩ ∧
      UINT32_MAX < 4294967296 ∧
      sCallW.program.procedures.get? 0 = some ⟨BVM_PRIMITIVE_ENTRY, 2, 0, []⟩ ∧
      (⟨BVM_PRIMITIVE_ENTRY, 2, 0, []⟩ : BVMProcedure).entry_pc = BVM_PRIMITIVE_ENTRY ∧
      sCallW.stack.data.get? (sCallW.stack.top - 3) = some ⟨TAG_BOOL, .uInt 10⟩ ∧
      sCallW.stack.data.get? (sCallW.stack.top - 3 + 1) = some ⟨TAG_NIL, .uInt 20⟩ ∧
      int64ok (10 + 20) = true) ∧
      (∃ s2, stepCall sCallW ⟨OP_CALL, [u32op 3]⟩ = .next s2 ∧
        s2.error = sCallW.error ∧ s2.halted = sCallW.halted ∧
        s2.stack.top = sCallW.stack.top - 3 ∧
        s2.stack.data.get? (sCallW.stack.top - 3 - 1) =
          some ⟨TAG_INT, .uInt (10 + 20)⟩ ∧
        s2.pc = sCallW.pc + 1) :=
  ⟨⟨by decide, by decide, by decide, by decide, by decide, by decide, by decide,
      by decide, by decide, by decide, by decide, by decide, by decide⟩,
    claim_C5_prim_call_unchecked sCallW ⟨OP_CALL, [u32op 3]⟩ (u32op 3) 3 10 20
      TAG_BOOL TAG_NIL UINT32_MAX ⟨BVM_PRIMITIVE_ENTRY, 2, 0, []⟩ (by decide)
      (by decide) (by decide) (by decide) (by decide) (by decide) (by decide)
      (by decide) (by decide) (by decide) (by decide) (by decide) (by decide)⟩

lemma strncmpEq_of_take (stored nm : List Nat) (h : stored = nm.take stored.length) :
    strncmpEq stored nm = true := by
  induction stored generalizing nm with
  | nil => rfl
  | cons a rest ih =>
    cases nm with
    | nil => simp at h
    | cons b nm2 =>
      rw [List.length_cons, List.take_succ_cons] at h
      injection h with h1 h2
      subst h1
      rw [strncmpEq]
      by_cases ha : a = 0
      · simp [ha]
      · simp [ha, ih nm2 h2]

lemma symbol_id_of_first (l : List BVMSymbolEntry) (nm : List Nat) (j : Nat)
    (sj : BVMSymbolEntry) (hj : l.get? j = some sj)
    (hmatch : strncmpEq sj.name nm = true)
    (hfirst : ∀ m, m < j → strncmpEq ((l.getD m ⟨0, []⟩).name) nm = false) :
    symbol_id_of l nm = some sj.id := by
  induction l generalizing j with
  | nil => cases hj
  | cons e rest ih =>
    cases j with
    | zero =>
      rw [List.get?_cons_zero] at hj
      injection hj with hj2
      subst hj2
      rw [symbol_id_of, if_pos hmatch]
    | succ j2 =>
      have he : strncmpEq e.name nm = false := by
        have := hfirst 0 (Nat.succ_pos j2)
        simpa [List.getD_cons_zero] using this
      rw [List.get?_cons_succ] at hj
      rw [symbol_id_of]
      simp only [he, Bool.false_eq_true, if_false]
      exact ih j2 hj (fun m hm => by
        have := hfirst (m + 1) (by omega)
        simpa [List.getD_cons_succ] using this)

lemma primitive_of_proc_ok (i : Nat) (h : i < 8) :
    ∃ k, primitive_of_proc i = .ok k := by
  interval_cases i <;> exact ⟨_, rfl⟩

lemma bindPrims_single (p : BVMProgram) (l : List BVMProcedure) (i0 i : Nat) (s : BVM)
    (pr : BVMProcedure)
    (hl : l.get? i = some pr) (hpr : pr.entry_pc = BVM_PRIMITIVE_ENTRY)
    (hothers : ∀ m, m < l.length → m ≠ i →
      (l.getD m dummyProc).entry_pc ≠ BVM_PRIMITIVE_ENTRY) :
    bindPrims p i0 l s = installPrim p (i0 + i) s := by
  induction l generalizing i0 i s with
  | nil => cases hl
  | cons e rest ih =>
    cases i with
    | zero =>
      rw [List.get?_cons_zero] at hl
      injection hl with hl2
      subst hl2
      have hrest : ∀ q ∈ rest, q.entry_pc ≠ BVM_PRIMITIVE_ENTRY := by
        intro q hq
        obtain ⟨m, hm, hget⟩ := List.getElem_of_mem hq
        have := hothers (m + 1) (by simpa using Nat.succ_lt_succ hm) (Nat.succ_ne_zero m)
        rwa [List.getD_cons_succ, List.getD_eq_getElem?_getD, List.getElem?_eq_getElem hm,
          Option.getD_some, hget] at this
      have hznat : i0 + 0 = i0 := rfl
      rw [hznat, bindPrims, if_neg (not_not_intro hpr)]
      rcases hres : installPrim p i0 s with s2 | _ | _
      · exact bindPrims_all_nonprim p rest (i0 + 1) s2 hrest
      · rfl
      · rfl
    | succ i2 =>
      have he : e.entry_pc ≠ BVM_PRIMITIVE_ENTRY := by
        have := hothers 0 (Nat.succ_pos _) (Nat.succ_ne_zero i2).symm
        simpa [List.getD_cons_zero] using this
      rw [List.get?_cons_succ] at hl
      rw [bindPrims, if_pos he]
      have hi' := ih (i0 + 1) i2 s hl (fun m hm hne => by
        have := hothers (m + 1) (by simpa using Nat.succ_lt_succ hm)
          (by omega)
        simpa [List.getD_cons_succ] using this)
      rw [hi']
      congr 1
      omega

/-- C9: primitive binding chooses the global slot by scanning the symbol table in
order with `strncmp` bounded by each stored name's length; when an entry whose
name is a byte-prefix of the primitive's name occurs before the exact entry (and
no earlier entry matches), the primitive `PROC` value is installed at that
earlier entry's id, and the exact entry's slot stays zero. -/
theorem claim_C9_prefix_shadows_primitive (p : BVMProgram) (i j k : Nat)
    (pr : BVMProcedure) (sj sk : BVMSymbolEntry)
    (hi : i < 8)
    (hpr : p.procedures.get? i = some pr)
    (hprim : pr.entry_pc = BVM_PRIMITIVE_ENTRY)
    (honly : ∀ m, m < p.procedures.length → m ≠ i →
      (p.procedures.getD m dummyProc).entry_pc ≠ BVM_PRIMITIVE_ENTRY)
    (hj : p.symbols.get? j = some sj)
    (hk : p.symbols.get? k = some sk)
    (hjk : j < k)
    (hpre : sj.name = (primNameBytes i).take sj.name.length)
    (hexact : sk.name = primNameBytes i)
    (hfirst : ∀ m, m < j →
      strncmpEq ((p.symbols.getD m ⟨0, []⟩).name) (primNameBytes i) = false)
    (hid : sj.id < p.symbols.length) (hid31 : sj.id < 2147483648)
    (hkid : sk.id < p.symbols.length) (hne : sk.id ≠ sj.id) :
    ∃ s, init_bvm p = .ok s ∧ ∃ g, s.envs.get? s.global_env = some g ∧
      g.slots.get? sj.id = some (primProcValue i) ∧
      g.slots.get? sk.id = some zeroValue := by
  have hmatch : strncmpEq sj.name (primNameBytes i) = true :=
    strncmpEq_of_take _ _ hpre
  have hsym : symbol_id_of p.symbols (primNameBytes i) = some sj.id :=
    symbol_id_of_first _ _ j sj hj hmatch hfirst
  have hred : init_bvm p = installPrim p i (initState p) := by
    rw [init_bvm, bindPrims_single p p.procedures 0 i (initState p) pr hpr hprim honly,
      Nat.zero_add]
  obtain ⟨kk, hkk⟩ := primitive_of_proc_ok i hi
  rw [hred]
  unfold installPrim
  rw [hkk, hsym]
  simp only []
  rw [if_neg (by omega)]
  have hg : (initState p).envs.get? (initState p).global_env =
      some ⟨UINT32_MAX, p.symbols.length % 65536,
            List.replicate p.symbols.length zeroValue⟩ := rfl
  simp only [hg]
  rw [if_neg (by rw [List.length_replicate]; omega)]
  refine ⟨_, rfl, ⟨UINT32_MAX, p.symbols.length % 65536,
    (List.replicate p.symbols.length zeroValue).set sj.id (primProcValue i)⟩, rfl, ?_, ?_⟩
  · exact List.get?_set_eq_of_lt _ (by rw [List.length_replicate]; omega)
  · rw [List.get?_set_ne _ _ (Ne.symm hne), List.get?_eq_getElem?,
      List.getElem?_replicate, if_pos hkid]

/-- Witness for C9 at the concrete program `progShadow`: the `not` primitive is
installed at the id of the earlier `"n"` entry (slot 0), while the exact
`"not"` entry's slot (1) stays zero. -/
theorem claim_C9_prefix_shadows_primitive_witness :
    ((7 : Nat) < 8 ∧
      progShadow.procedures.get? 7 = some ⟨BVM_PRIMITIVE_ENTRY, 1, 0, []⟩ ∧
      (∀ m, m < progShadow.procedures.length → m ≠ 7 →
        (progShadow.procedures.getD m dummyProc).entry_pc ≠ BVM_PRIMITIVE_ENTRY) ∧
      progShadow.symbols.get? 0 = some ⟨0, [110]⟩ ∧
      progShadow.symbols.get? 1 = some ⟨1, [110, 111, 116]⟩ ∧
      (⟨0, [110]⟩ : BVMSymbolEntry).name =
        (primNameBytes 7).take (⟨0, [110]⟩ : BVMSymbolEntry).name.length ∧
      (⟨1, [110, 111, 116]⟩ : BVMSymbolEntry).name = primNameBytes 7) ∧
      (∃ s, init_bvm progShadow = .ok s ∧
        ∃ g, s.envs.get? s.global_env = some g ∧
          g.slots.get? 0 = some (primProcValue 7) ∧
          g.slots.get? 1 = some zeroValue) :=
  ⟨⟨by decide, by decide, by decide, by decide, by decide, by decide, by decide⟩,
    claim_C9_prefix_shadows_primitive progShadow 7 0 1 ⟨BVM_PRIMITIVE_ENTRY, 1, 0, []⟩
      ⟨0, [110]⟩ ⟨1, [110, 111, 116]⟩ (by decide) (by decide) (by decide) (by decide)
      (by decide) (by decide) (by decide) (by decide) (by decide) (by decide)
      (by decide) (by decide) (by decide) (by decide)⟩

lemma machInv_set_error {s : BVM} (hI : MachInv s) : MachInv { s with error := true } :=
  hI

lemma machInv_set_halted {s : BVM} (hI : MachInv s) : MachInv { s with halted := true } :=
  ⟨hI.1, hI.2.1, Or.inr rfl, hI.2.2.2.1, hI.2.2.2.2⟩

lemma machInv_pushNext {s : BVM} {v : BVMValue} {b : BVM}
    (hI : MachInv s) (h : pushNext s v = .next b) : MachInv b := by
  obtain ⟨hlt, hb⟩ := pushNext_eq_next h
  subst hb
  exact ⟨by show s.stack.top + 1 ≤ s.stack.capacity; omega,
    hI.2.1, hI.2.2.1, hI.2.2.2.1, hI.2.2.2.2⟩

lemma machInv_popPc {s : BVM} (hI : MachInv s) (t2 : Nat) (ht : t2 ≤ s.stack.top)
    (pc2 : Int) :
    MachInv { s with stack := ⟨s.stack.capacity, t2, s.stack.data⟩, pc := pc2 } :=
  ⟨by show t2 ≤ s.stack.capacity; have := hI.1; omega,
    hI.2.1, hI.2.2.1, hI.2.2.2.1, hI.2.2.2.2⟩

lemma machInv_envs_set {s : BVM} (hI : MachInv s) (i : Nat) (e : BVMEnv) (t2 : Nat)
    (ht : t2 ≤ s.stack.top) (pc2 : Int) :
    MachInv { s with stack := ⟨s.stack.capacity, t2, s.stack.data⟩,
                     envs := s.envs.set i e, pc := pc2 } := by
  obtain ⟨h1, h2, h3, h4, h5⟩ := hI
  refine ⟨by show t2 ≤ s.stack.capacity; omega, ?_, h3, ?_, h5⟩
  · show s.current_env < (s.envs.set i e).length
    rw [List.length_set]
    exact h2
  · intro f hf
    show f.env_idx < (s.envs.set i e).length
    rw [List.length_set]
    exact h4 f hf

lemma getLast?_tail_max {f : BVMFrame} {rest : List BVMFrame}
    (h5 : ∀ g, (f :: rest).getLast? = some g → g.return_pc = UINT32_MAX) :
    ∀ g, rest.getLast? = some g → g.return_pc = UINT32_MAX := by
  intro g hg
  apply h5
  cases rest with
  | nil => cases hg
  | cons c t =>
    rw [getLast?_cons_of_ne f (c :: t) (by simp)]
    exact hg

lemma rest_ne_nil_of_nonsentinel {f : BVMFrame} {rest : List BVMFrame}
    (h5 : ∀ g, (f :: rest).getLast? = some g → g.return_pc = UINT32_MAX)
    (hnf : f.return_pc ≠ UINT32_MAX) : rest ≠ [] := by
  intro hrest
  subst hrest
  exact hnf (h5 f rfl)

lemma machInv_stPlain {s : BVM} (hI : MachInv s) {v : BVMValue} {st : BVMStack}
    (heq : popVal s.stack = some (v, st)) (pc2 : Int) :
    MachInv { s with stack := st, pc := pc2 } := by
  obtain ⟨hne, hst, hv⟩ := popVal_eq_some heq
  rw [show (v, st).2 = st from rfl] at hst
  subst hst
  exact machInv_popPc hI (s.stack.top - 1) (by omega) pc2

lemma machInv_stEnvs {s : BVM} (hI : MachInv s) {v : BVMValue} {st : BVMStack}
    (heq : popVal s.stack = some (v, st)) (i : Nat) (e : BVMEnv) (pc2 : Int) :
    MachInv { s with stack := st, envs := s.envs.set i e, pc := pc2 } := by
  obtain ⟨hne, hst, hv⟩ := popVal_eq_some heq
  rw [show (v, st).2 = st from rfl] at hst
  subst hst
  exact machInv_envs_set hI i e (s.stack.top - 1) (by omega) pc2

lemma inv_stepLoadConst {s : BVM} {instr : BVMInstruction} {b : BVM}
    (hI : MachInv s) (h : stepLoadConst s instr = .next b) : MachInv b := by
  unfold stepLoadConst at h
  repeat' split at h
  all_goals first
    | (cases h; done)
    | exact machInv_pushNext hI h

lemma inv_stepLoadVar {s : BVM} {instr : BVMInstruction} {b : BVM}
    (hI : MachInv s) (h : stepLoadVar s instr = .next b) : MachInv b := by
  unfold stepLoadVar at h
  repeat' split at h
  all_goals first
    | (cases h; done)
    | exact machInv_pushNext hI h

lemma inv_stepStoreVar {s : BVM} {instr : BVMInstruction} {b : BVM}
    (hI : MachInv s) (h : stepStoreVar s instr = .next b) : MachInv b := by
  unfold stepStoreVar at h
  repeat' split at h
  all_goals first
    | (cases h; done)
    | (cases h; exact machInv_stEnvs hI (by assumption) _ _ _)

lemma inv_stepJmp {s : BVM} {instr : BVMInstruction} {b : BVM}
    (hI : MachInv s) (h : stepJmp s instr = .next b) : MachInv b := by
  unfold stepJmp at h
  repeat' split at h
  all_goals first
    | (cases h; done)
    | (cases h; exact hI)

lemma inv_stepJmpTrue {s : BVM} {instr : BVMInstruction} {b : BVM}
    (hI : MachInv s) (h : stepJmpTrue s instr = .next b) : MachInv b := by
  unfold stepJmpTrue at h
  repeat' split at h
  all_goals first
    | (cases h; done)
    | (cases h; exact machInv_stPlain hI (by assumption) _)

lemma inv_stepJmpFalse {s : BVM} {instr : BVMInstruction} {b : BVM}
    (hI : MachInv s) (h : stepJmpFalse s instr = .next b) : MachInv b := by
  unfold stepJmpFalse at h
  repeat' split at h
  all_goals first
    | (cases h; done)
    | (cases h; exact machInv_stPlain hI (by assumption) _)

lemma inv_stepLoadClosure {s : BVM} {instr : BVMInstruction} {b : BVM}
    (hI : MachInv s) (h : stepLoadClosure s instr = .next b) : MachInv b := by
  unfold stepLoadClosure at h
  repeat' split at h
  all_goals first
    | (cases h; done)
    | (cases h; exact machInv_set_error hI)
    | exact machInv_pushNext hI h

lemma inv_stepStoreClosure {s : BVM} {instr : BVMInstruction} {b : BVM}
    (hI : MachInv s) (h : stepStoreClosure s instr = .next b) : MachInv b := by
  unfold stepStoreClosure at h
  repeat' split at h
  all_goals first
    | (cases h; done)
    | (cases h; exact machInv_stEnvs hI (by assumption) _ _ _)

lemma machInv_envs_grow {s : BVM} (hI : MachInv s) (cap2 : Nat) (e e2 : BVMEnv) :
    MachInv { s with env_capacity := cap2,
                     envs := (s.envs ++ [e]).set s.envs.length e2 } := by
  obtain ⟨h1, h2, h3, h4, h5⟩ := hI
  have hlen : ((s.envs ++ [e]).set s.envs.length e2).length = s.envs.length + 1 := by
    rw [List.length_set, List.length_append, List.length_singleton]
  refine ⟨h1, ?_, h3, ?_, h5⟩
  · show s.current_env < ((s.envs ++ [e]).set s.envs.length e2).length
    rw [hlen]
    omega
  · intro f hf
    show f.env_idx < ((s.envs ++ [e]).set s.envs.length e2).length
    rw [hlen]
    have := h4 f hf
    omega

lemma inv_stepMakeClosure {s : BVM} {instr : BVMInstruction} {b : BVM}
    (hI : MachInv s) (h : stepMakeClosure s instr = .next b) : MachInv b := by
  unfold stepMakeClosure at h
  simp only [] at h
  repeat' split at h
  all_goals first
    | (cases h; done)
    | exact machInv_pushNext (machInv_envs_grow hI _ _ _) h

lemma inv_stepReturnOp {s : BVM} {b : BVM}
    (hI : MachInv s) (h : stepReturnOp s = .next b) : MachInv b := by
  obtain ⟨h1, h2, h3, h4, h5⟩ := hI
  unfold stepReturnOp at h
  split at h
  · cases h
  case _ ret st heq =>
    split at h
    · cases h
    case _ f rest hframes =>
      obtain ⟨hne, hst, hv⟩ := popVal_eq_some heq
      rw [show (ret, st).2 = st from rfl] at hst
      subst hst
      have h5f : ∀ g, (f :: rest).getLast? = some g → g.return_pc = UINT32_MAX := by
        intro g hg
        apply h5
        rw [hframes]
        exact hg
      split at h
      · cases h
        refine ⟨by show s.stack.top - 1 ≤ s.stack.capacity; omega, h2, Or.inr rfl,
          ?_, ?_⟩
        · intro g hg
          apply h4
          rw [hframes]
          exact List.mem_cons_of_mem f hg
        · exact getLast?_tail_max h5f
      · rename_i hmax
        split at h
        · cases h
        · rename_i hcap
          cases h
          have hrest : rest ≠ [] := rest_ne_nil_of_nonsentinel h5f hmax
          refine ⟨by show f.stack_base + 1 ≤ s.stack.capacity; omega, ?_,
            Or.inl hrest, ?_, ?_⟩
          · show f.env_idx < s.envs.length
            apply h4
            rw [hframes]
            exact List.mem_cons_self f rest
          · intro g hg
            apply h4
            rw [hframes]
            exact List.mem_cons_of_mem f hg
          · exact getLast?_tail_max h5f

lemma machInv_call_frame {s : BVM} (hI : MachInv s) (hfr : s.frames ≠ [])
    (t2 : Nat) (ht : t2 ≤ s.stack.top) (cap2 : Nat) (e0 e2 : BVMEnv) (fcap : Nat)
    (rpc sb : Nat) (pc2 : Int) :
    MachInv { s with
      stack := ⟨s.stack.capacity, t2, s.stack.data⟩,
      env_capacity := cap2,
      envs := (s.envs ++ [e0]).set s.envs.length e2,
      frame_capacity := fcap,
      frames := (⟨rpc, s.current_env, sb⟩ : BVMFrame) :: s.frames,
      current_env := s.envs.length,
      pc := pc2 } := by
  obtain ⟨h1, h2, h3, h4, h5⟩ := hI
  have hlen : ((s.envs ++ [e0]).set s.envs.length e2).length = s.envs.length + 1 := by
    rw [List.length_set, List.length_append, List.length_singleton]
  refine ⟨by show t2 ≤ s.stack.capacity; omega, ?_, Or.inl (by simp), ?_, ?_⟩
  · show s.envs.length < ((s.envs ++ [e0]).set s.envs.length e2).length
    rw [hlen]
    omega
  · intro f hf
    show f.env_idx < ((s.envs ++ [e0]).set s.envs.length e2).length
    rw [hlen]
    rcases List.mem_cons.mp hf with hf | hf
    · subst hf
      show s.current_env < s.envs.length + 1
      omega
    · have := h4 f hf
      omega
  · intro g hg
    rw [getLast?_cons_of_ne _ _ hfr] at hg
    exact h5 g hg

lemma inv_stepCall {s : BVM} {instr : BVMInstruction} {b : BVM}
    (hI : MachInv s) (hhalt : s.halted = false)
    (h : stepCall s instr = .next b) : MachInv b := by
  have hfr : s.frames ≠ [] := by
    rcases hI.2.2.1 with h3 | h3
    · exact h3
    · rw [hhalt] at h3
      cases h3
  unfold stepCall at h
  simp only [] at h
  repeat' split at h
  all_goals first
    | (cases h; done)
    | (cases h; exact machInv_set_error (machInv_popPc hI _ (by omega) s.pc))
    | exact machInv_pushNext (machInv_popPc hI _ (by omega) s.pc) h
    | (cases h; exact machInv_call_frame hI hfr _ (by omega) _ _ _ _ _ _ _)

lemma inv_step {a b : BVM} (hI : MachInv a) (herr : a.error = false)
    (hhalt : a.halted = false) (h : step a = .next b) : MachInv b := by
  by_cases hpc : a.pc < 0 ∨ (a.program.bytecode.length : Int) ≤ a.pc
  · rw [step, if_pos hpc] at h
    cases h
    exact machInv_set_error hI
  rw [step, if_neg hpc] at h
  by_cases c14 : (fetchInstr a).opcode = OP_HALT
  · rw [if_pos c14] at h
    cases h
    exact machInv_set_halted hI
  rw [if_neg c14] at h
  by_cases c13 : (fetchInstr a).opcode = OP_POP
  · rw [if_pos c13] at h
    split at h
    · cases h
    · cases h
      exact machInv_stPlain hI (by assumption) _
  rw [if_neg c13] at h
  by_cases c1 : (fetchInstr a).opcode = OP_LOAD_CONST
  · rw [if_pos c1] at h
    exact inv_stepLoadConst hI h
  rw [if_neg c1] at h
  by_cases c2 : (fetchInstr a).opcode = OP_LOAD_VAR
  · rw [if_pos c2] at h
    exact inv_stepLoadVar hI h
  rw [if_neg c2] at h
  by_cases c3 : (fetchInstr a).opcode = OP_STORE_VAR
  · rw [if_pos c3] at h
    exact inv_stepStoreVar hI h
  rw [if_neg c3] at h
  by_cases c4 : (fetchInstr a).opcode = OP_JMP
  · rw [if_pos c4] at h
    exact inv_stepJmp hI h
  rw [if_neg c4] at h
  by_cases c5 : (fetchInstr a).opcode = OP_JMP_TRUE
  · rw [if_pos c5] at h
    exact inv_stepJmpTrue hI h
  rw [if_neg c5] at h
  by_cases c6 : (fetchInstr a).opcode = OP_JMP_FALSE
  · rw [if_pos c6] at h
    exact inv_stepJmpFalse hI h
  rw [if_neg c6] at h
  by_cases c0 : (fetchInstr a).opcode = OP_RETURN
  · rw [if_pos c0] at h
    exact inv_stepReturnOp hI h
  rw [if_neg c0] at h
  by_cases c7 : (fetchInstr a).opcode = OP_LABEL
  · rw [if_pos c7] at h
    cases h
    exact machInv_set_error hI
  rw [if_neg c7] at h
  by_cases c10 : (fetchInstr a).opcode = OP_MAKE_CLOSURE
  · rw [if_pos c10] at h
    exact inv_stepMakeClosure hI h
  rw [if_neg c10] at h
  by_cases c11 : (fetchInstr a).opcode = OP_LOAD_CLOSURE
  · rw [if_pos c11] at h
    exact inv_stepLoadClosure hI h
  rw [if_neg c11] at h
  by_cases c12 : (fetchInstr a).opcode = OP_STORE_CLOSURE
  · rw [if_pos c12] at h
    exact inv_stepStoreClosure hI h
  rw [if_neg c12] at h
  by_cases c8 : (fetchInstr a).opcode = OP_CALL
  · rw [if_pos c8] at h
    exact inv_stepCall hI hhalt h
  rw [if_neg c8] at h
  cases h
  exact machInv_set_error hI

lemma installPrim_fields {p : BVMProgram} {i : Nat} {s s2 : BVM}
    (h : installPrim p i s = .ok s2) :
    s2.stack = s.stack ∧ s2.frames = s.frames ∧ s2.current_env = s.current_env ∧
      s2.halted = s.halted ∧ s2.error = s.error ∧ s2.envs.length = s.envs.length := by
  unfold installPrim at h
  repeat' split at h
  all_goals cases h
  exact ⟨rfl, rfl, rfl, rfl, rfl, by
    show (s.envs.set s.global_env _).length = s.envs.length
    rw [List.length_set]⟩

lemma bindPrims_fields {p : BVMProgram} {l : List BVMProcedure} {i : Nat} {s s2 : BVM}
    (h : bindPrims p i l s = .ok s2) :
    s2.stack = s.stack ∧ s2.frames = s.frames ∧ s2.current_env = s.current_env ∧
      s2.halted = s.halted ∧ s2.error = s.error ∧ s2.envs.length = s.envs.length := by
  induction l generalizing i s with
  | nil =>
    cases h
    exact ⟨rfl, rfl, rfl, rfl, rfl, rfl⟩
  | cons e rest ih =>
    rw [bindPrims] at h
    split at h
    · exact ih h
    · split at h
      · rename_i s3 hs3
        obtain ⟨a1, a2, a3, a4, a5, a6⟩ := installPrim_fields hs3
        obtain ⟨b1, b2, b3, b4, b5, b6⟩ := ih h
        exact ⟨b1.trans a1, b2.trans a2, b3.trans a3, b4.trans a4, b5.trans a5,
          b6.trans a6⟩
      · cases h
      · cases h

lemma machInv_initState (p : BVMProgram) : MachInv (initState p) := by
  refine ⟨?_, ?_, Or.inl (by simp [initState]), ?_, ?_⟩
  · show (0 : Nat) ≤ 256
    omega
  · show (0 : Nat) < 1
    omega
  · intro f hf
    have : f = ⟨UINT32_MAX, 0, 0⟩ := by
      simpa [initState] using hf
    rw [this]
    show (0 : Nat) < 1
    omega
  · intro g hg
    have hrev : (⟨UINT32_MAX, 0, 0⟩ : BVMFrame) = g := by
      simpa [initState, List.getLast?] using hg
    rw [← hrev]

lemma machInv_init {p : BVMProgram} {s0 : BVM} (h : init_bvm p = .ok s0) :
    MachInv s0 := by
  rw [init_bvm] at h
  obtain ⟨hst, hfr, hce, hh, herr, hlen⟩ := bindPrims_fields h
  obtain ⟨h1, h2, h3, h4, h5⟩ := machInv_initState p
  refine ⟨?_, ?_, ?_, ?_, ?_⟩
  · rw [hst]
    exact h1
  · rw [hce, hlen]
    exact h2
  · rw [hfr, hh]
    exact h3
  · intro f hf
    rw [hlen]
    exact h4 f (by rw [hfr] at hf; exact hf)
  · intro g hg
    exact h5 g (by rw [hfr] at hg; exact hg)

/-- C8: in every state the dispatch loop reaches from a freshly initialized VM,
`stack.top ≤ stack.capacity`, `current_env < env_count`, and either
`frame_count ≥ 1` or the VM is halted. -/
theorem claim_C8_reachable_invariant (p : BVMProgram) (s0 s : BVM)
    (hinit : init_bvm p = .ok s0) (hr : Reaches s0 s) : ClaimedInv s := by
  have hI : MachInv s := by
    induction hr with
    | refl => exact machInv_init hinit
    | tail hab hbc ih =>
      obtain ⟨herr, hhalt, hstep⟩ := hbc
      exact inv_step ih herr hhalt hstep
  obtain ⟨h1, h2, h3, h4, h5⟩ := hI
  refine ⟨h1, h2, ?_⟩
  rcases h3 with h3 | h3
  · exact Or.inl (by have := List.length_pos.mpr h3; omega)
  · exact Or.inr h3

/-- Witness for C8: the invariant holds at the freshly initialized state of the
one-symbol program (reachable by the empty execution). -/
theorem claim_C8_reachable_invariant_witness :
    init_bvm progSym = .ok (initState progSym) ∧ ClaimedInv (initState progSym) :=
  ⟨rfl, claim_C8_reachable_invariant progSym (initState progSym) (initState progSym)
    rfl Relation.ReflTransGen.refl⟩
